import Mathlib

/-!
Verification of the segnet CUDA visualization kernels
(`gpuSegOverlay` / `cudaSegOverlay`, `clip`, `TensorToRGB` / `cudaTensor32ToRGB8`,
`BlendRGBA32ToRGB8` / `cudaBlendRGBA32ToRGB8`) against their specification.

Shallow embedding conventions:
* CUDA 32-bit floating-point arithmetic is modelled exactly over `ℚ`
  (the claims under study are algebraic/index-level properties of the
  per-pixel computation, stated here over the exact-rational idealization
  of the kernel arithmetic).
* Device buffers are modelled as total functions from the (integer) linear
  index used by the source's pointer arithmetic to the stored value.
* Each CUDA kernel is modelled by its per-thread computation at output
  coordinate `(x, y)`; the `x >= width || y >= height` early return is the
  `none` case, so `none` means "this thread writes nothing".
-/

/-- Exact-rational model of CUDA `float4` (also used for the promoted
channel values of `uchar3/uchar4/float3` pixels inside kernel arithmetic). -/
structure float4 where
  x : ℚ
  y : ℚ
  z : ℚ
  w : ℚ
deriving DecidableEq

/-- Exact-rational model of CUDA `float3`. -/
structure float3 where
  x : ℚ
  y : ℚ
  z : ℚ
deriving DecidableEq

/-- Model of CUDA `int2`. -/
structure int2 where
  x : ℤ
  y : ℤ
deriving DecidableEq

/-- Model of CUDA `uchar3`; the channels are kept as unbounded integers
(every value written by this file's kernels lies in `[0, 255]`). -/
structure uchar3 where
  x : ℤ
  y : ℤ
  z : ℤ
deriving DecidableEq

/-- C/C++ float-to-integer conversion: truncation toward zero. -/
def cToInt (q : ℚ) : ℤ := if 0 ≤ q then ⌊q⌋ else ⌈q⌉

/-- segnet.cpp lines 516-517: normalized output coordinate
`px = float(x) / float(out_width)` (same definition serves `py`). -/
def segPx (out_width : ℕ) (x : ℕ) : ℚ := (x : ℚ) / (out_width : ℚ)

/-- segnet.cpp lines 525-528 (point-filter branch): score-grid cell index
`x1 = int(px * float(scores_dim.x))` (same definition serves `y1`). -/
def segPointX1 (out_width : ℕ) (dimx : ℤ) (x : ℕ) : ℤ :=
  cToInt (segPx out_width x * (dimx : ℚ))

/-- segnet.cpp lines 531-535 (point-filter branch): class color of the
nearest score-grid cell, `class_colors[scores[y1 * scores_dim.x + x1]]`. -/
def segPointColor (class_colors : ℕ → float4) (scores : ℤ → ℕ) (scores_dim : int2)
    (out_width out_height : ℕ) (x y : ℕ) : float4 :=
  class_colors (scores (segPointX1 out_height scores_dim.y y * scores_dim.x
    + segPointX1 out_width scores_dim.x x))

/-- segnet.cpp lines 564-568 (linear-filter branch): continuous score-grid
coordinate `bx = px * scores_dim.x - 0.5`, clamped below at `0`
(`cx = bx < 0 ? 0 : bx`); same definition serves the `y` axis. -/
def segLinearCX (out_width : ℕ) (dimx : ℤ) (x : ℕ) : ℚ :=
  let bx := segPx out_width x * (dimx : ℚ) - 1/2
  if bx < 0 then 0 else bx

/-- segnet.cpp lines 570-571: low neighbor `x1 = int(cx)`. -/
def segLinearX1 (out_width : ℕ) (dimx : ℤ) (x : ℕ) : ℤ :=
  cToInt (segLinearCX out_width dimx x)

/-- segnet.cpp lines 573-574: high neighbor with bounds check,
`x2 = x1 >= scores_dim.x - 1 ? x1 : x1 + 1`. -/
def segLinearX2 (out_width : ℕ) (dimx : ℤ) (x : ℕ) : ℤ :=
  let x1 := segLinearX1 out_width dimx x
  if x1 ≥ dimx - 1 then x1 else x1 + 1

/-- segnet.cpp lines 576-605 (linear-filter branch): fetch the four
neighboring class colors and blend them with the bilinear weights. -/
def segLinearColor (class_colors : ℕ → float4) (scores : ℤ → ℕ) (scores_dim : int2)
    (out_width out_height : ℕ) (x y : ℕ) : float4 :=
  let cx := segLinearCX out_width scores_dim.x x
  let cy := segLinearCX out_height scores_dim.y y
  let x1 := segLinearX1 out_width scores_dim.x x
  let y1 := segLinearX1 out_height scores_dim.y y
  let x2 := segLinearX2 out_width scores_dim.x x
  let y2 := segLinearX2 out_height scores_dim.y y
  let cc0 := class_colors (scores (y1 * scores_dim.x + x1))
  let cc1 := class_colors (scores (y1 * scores_dim.x + x2))
  let cc2 := class_colors (scores (y2 * scores_dim.x + x2))
  let cc3 := class_colors (scores (y2 * scores_dim.x + x1))
  let x1d := cx - (x1 : ℚ)
  let y1d := cy - (y1 : ℚ)
  let x1f := 1 - x1d
  let y1f := 1 - y1d
  let x2f := 1 - x1f
  let y2f := 1 - y1f
  let x1y1f := x1f * y1f
  let x1y2f := x1f * y2f
  let x2y1f := x2f * y1f
  let x2y2f := x2f * y2f
  ⟨cc0.x * x1y1f + cc1.x * x2y1f + cc2.x * x2y2f + cc3.x * x1y2f,
   cc0.y * x1y1f + cc1.y * x2y1f + cc2.y * x2y2f + cc3.y * x1y2f,
   cc0.z * x1y1f + cc1.z * x2y1f + cc2.z * x2y2f + cc3.z * x1y2f,
   cc0.w * x1y1f + cc1.w * x2y1f + cc2.w * x2y2f + cc3.w * x1y2f⟩

/-- segnet.cpp lines 538-542 / 607-611 (`mask_only`): the four channel
values passed to `make_vec<T>` — the class color's RGB with alpha `255`. -/
def segMaskPixel (classColor : float4) : float4 :=
  ⟨classColor.x, classColor.y, classColor.z, 255⟩

/-- segnet.cpp lines 546-547 / 616-617: input-image sample column
`x_in = int(px * float(in_width))` (same definition serves `y_in`). -/
def segXin (out_width : ℕ) (in_width : ℕ) (x : ℕ) : ℤ :=
  cToInt (segPx out_width x * (in_width : ℚ))

/-- segnet.cpp lines 543-558 / 613-628 (overlay): alpha-blend the class
color onto the nearest input pixel, `out = alph * color + inva * px_in`
per RGB channel with `alph = classColor.w / 255`, alpha written `255`. -/
def segBlendPixel (input : ℤ → float4) (in_width in_height out_width out_height : ℕ)
    (classColor : float4) (x y : ℕ) : float4 :=
  let x_in := segXin out_width in_width x
  let y_in := segXin out_height in_height y
  let px_in := input (y_in * (in_width : ℤ) + x_in)
  let alph := classColor.w / 255
  let inva := 1 - alph
  ⟨alph * classColor.x + inva * px_in.x,
   alph * classColor.y + inva * px_in.y,
   alph * classColor.z + inva * px_in.z,
   255⟩

/-- segnet.cpp lines 505-632, kernel `gpuSegOverlay<T, filter_linear,
mask_only>` at output coordinate `(x, y)`: `none` when the thread is out of
range (no write), otherwise the four channel values handed to
`make_vec<T>` for the written pixel. -/
def gpuSegOverlay (input : ℤ → float4) (in_width in_height : ℕ)
    (out_width out_height : ℕ) (class_colors : ℕ → float4) (scores : ℤ → ℕ)
    (scores_dim : int2) (filter_linear mask_only : Bool) (x y : ℕ) : Option float4 :=
  if x ≥ out_width ∨ y ≥ out_height then none
  else
    let classColor :=
      if filter_linear then
        segLinearColor class_colors scores scores_dim out_width out_height x y
      else
        segPointColor class_colors scores scores_dim out_width out_height x y
    if mask_only then some (segMaskPixel classColor)
    else some (segBlendPixel input in_width in_height out_width out_height classColor x y)

/-- Model of the `imageFormat` tags relevant to `cudaSegOverlay`: the four
RGB formats it dispatches on, plus representative unsupported tags. -/
inductive imageFormat where
  | IMAGE_RGB8
  | IMAGE_RGBA8
  | IMAGE_RGB32F
  | IMAGE_RGBA32F
  | IMAGE_GRAY8
  | IMAGE_NV12
deriving DecidableEq

/-- Modelled from the spec: `imageFormatIsRGB` lives in imageFormat.h,
which is not under src/. Per the spec's closed set of supported formats and
the diagnostic in segnet.cpp lines 650-653, it accepts exactly rgb8, rgba8,
rgb32f and rgba32f. -/
def imageFormatIsRGB (format : imageFormat) : Bool :=
  match format with
  | .IMAGE_RGB8 => true
  | .IMAGE_RGBA8 => true
  | .IMAGE_RGB32F => true
  | .IMAGE_RGBA32F => true
  | _ => false

/-- Model of the `cudaError_t` values produced by `cudaSegOverlay` and the
launch wrappers (launch failures are out of scope, so a dispatched kernel
reports `cudaSuccess`). -/
inductive cudaError where
  | cudaSuccess
  | cudaErrorInvalidDevicePointer
  | cudaErrorInvalidValue
deriving DecidableEq

/-- A pixel of one of the four supported output layouts, in the output's
native channel type: 8-bit channels as integers, float channels exact. -/
inductive NativePixel where
  | rgb8 (x y z : ℤ)
  | rgba8 (x y z w : ℤ)
  | rgb32f (x y z : ℚ)
  | rgba32f (x y z w : ℚ)
deriving DecidableEq

/-- The alpha channel of a native pixel, promoted to `ℚ`; `none` for the
3-channel formats, which carry no alpha. -/
def NativePixel.alphaChannel : NativePixel → Option ℚ
  | .rgb8 _ _ _ => none
  | .rgba8 _ _ _ w => some (w : ℚ)
  | .rgb32f _ _ _ => none
  | .rgba32f _ _ _ w => some w

/-- Modelled from the spec: `make_vec<T>` lives in cudaVector.h, which is
not under src/. Per the spec, the final pixel is written "in whatever the
output's native channel type is": the four channel values are converted to
the native channel type (32-bit float channels keep the value exactly,
8-bit channels use the C float-to-integer conversion) and the channels the
format lacks are dropped. Unsupported formats never reach the kernel, so
their row is arbitrary. -/
def make_vec (format : imageFormat) (x y z w : ℚ) : NativePixel :=
  match format with
  | .IMAGE_RGB8 => .rgb8 (cToInt x) (cToInt y) (cToInt z)
  | .IMAGE_RGBA8 => .rgba8 (cToInt x) (cToInt y) (cToInt z) (cToInt w)
  | .IMAGE_RGB32F => .rgb32f x y z
  | .IMAGE_RGBA32F => .rgba32f x y z w
  | _ => .rgb8 0 0 0

/-- The pixel actually stored by `gpuSegOverlay` for a given output format:
the kernel's channel values passed through `make_vec<T>`. -/
def gpuSegOverlayNative (format : imageFormat) (input : ℤ → float4)
    (in_width in_height out_width out_height : ℕ) (class_colors : ℕ → float4)
    (scores : ℤ → ℕ) (scores_dim : int2) (filter_linear mask_only : Bool)
    (x y : ℕ) : Option NativePixel :=
  Option.map (fun c => make_vec format c.x c.y c.z c.w)
    (gpuSegOverlay input in_width in_height out_width out_height class_colors
      scores scores_dim filter_linear mask_only x y)

/-- The output buffer after the kernel grid completes: linear index `i`
decodes to pixel `(i % out_width, i / out_width)`; an in-range pixel holds
the kernel's write and every other index keeps its previous contents. -/
def gpuSegOverlayBuffer (out0 : ℕ → NativePixel) (format : imageFormat)
    (input : ℤ → float4) (in_width in_height out_width out_height : ℕ)
    (class_colors : ℕ → float4) (scores : ℤ → ℕ) (scores_dim : int2)
    (filter_linear mask_only : Bool) : ℕ → NativePixel :=
  fun i =>
    (gpuSegOverlayNative format input in_width in_height out_width out_height
      class_colors scores scores_dim filter_linear mask_only
      (i % out_width) (i / out_width)).getD (out0 i)

/-- Dereference a possibly-null device pointer to an image buffer; the
dispatcher never inspects these pointers, and a null read is modelled as
zeroed memory. -/
def derefImage (p : Option (ℤ → float4)) : ℤ → float4 :=
  p.getD (fun _ => ⟨0, 0, 0, 0⟩)

/-- Dereference a possibly-null class-color-table pointer. -/
def derefColors (p : Option (ℕ → float4)) : ℕ → float4 :=
  p.getD (fun _ => ⟨0, 0, 0, 0⟩)

/-- Dereference a possibly-null score-grid pointer. -/
def derefScores (p : Option (ℤ → ℕ)) : ℤ → ℕ :=
  p.getD (fun _ => 0)

/-- segnet.cpp lines 635-702, `cudaSegOverlay`: pre-launch validation (null
output pointer, zero output dimensions, unsupported format — in that
order), then kernel dispatch. Returns the status code together with the
final contents of the output buffer (`none` models a null output pointer);
on every early return the buffer is exactly the caller's `out`. -/
def cudaSegOverlay (input : Option (ℤ → float4)) (in_width in_height : ℕ)
    (output : Option (ℕ → NativePixel)) (out_width out_height : ℕ)
    (format : imageFormat) (class_colors : Option (ℕ → float4))
    (scores : Option (ℤ → ℕ)) (scores_dim : int2)
    (filter_linear mask_only : Bool) : cudaError × Option (ℕ → NativePixel) :=
  match output with
  | none => (.cudaErrorInvalidDevicePointer, none)
  | some out =>
    if out_width = 0 ∨ out_height = 0 then (.cudaErrorInvalidValue, some out)
    else if imageFormatIsRGB format = false then (.cudaErrorInvalidValue, some out)
    else
      (.cudaSuccess,
       some (gpuSegOverlayBuffer out format (derefImage input) in_width in_height
         out_width out_height (derefColors class_colors) (derefScores scores)
         scores_dim filter_linear mask_only))

/-- segnet.cpp lines 724-727: `clip(float, min, max)`. -/
def clip (x min max : ℚ) : ℚ :=
  if x > max then max else if x < min then min else x

/-- segnet.cpp lines 730-735: the `uchar3 clip(const float3&, int, int)`
overload — per-channel scalar clip followed by `make_uchar3`, whose
float-to-unsigned-char conversion truncates. -/
def clip3 (px : float3) (min max : ℤ) : uchar3 :=
  ⟨cToInt (clip px.x (min : ℚ) (max : ℚ)),
   cToInt (clip px.y (min : ℚ) (max : ℚ)),
   cToInt (clip px.z (min : ℚ) (max : ℚ))⟩

/-- segnet.cpp lines 739-756, kernel `TensorToRGB` at pixel `(x, y)`:
reads the three planes of the channel-major tensor at this pixel's offset
(`dx = int(float(x) * 1.0f) = x`, likewise `dy`), multiplies by 255, clips
to `[0, 255]` and stores a `uchar3`. `none` when the thread is out of
range. -/
def TensorToRGB (srcImage : ℕ → ℚ) (width height : ℕ) (x y : ℕ) : Option uchar3 :=
  if x ≥ width ∨ y ≥ height then none
  else
    let n := width * height
    let dx := x
    let dy := y
    some (clip3
      ⟨srcImage (n * 0 + dy * width + dx) * 255,
       srcImage (n * 1 + dy * width + dx) * 255,
       srcImage (n * 2 + dy * width + dx) * 255⟩ 0 255)

/-- segnet.cpp lines 786-803, kernel `BlendRGBA32ToRGB8` at pixel `(x, y)`:
per channel `src * 255 * alph + (1 - alph) * BG` with the fixed background
`BG = (120, 255, 155)`, clipped to `[0, 255]` and stored as `uchar3`.
`none` when the thread is out of range. -/
def BlendRGBA32ToRGB8 (srcImage alphImage : ℕ → ℚ) (width height : ℕ)
    (x y : ℕ) : Option uchar3 :=
  if x ≥ width ∨ y ≥ height then none
  else
    let n := width * height
    let dx := x
    let dy := y
    some (clip3
      ⟨srcImage (n * 0 + dy * width + dx) * 255 * alphImage (dy * width + dx)
         + (1 - alphImage (dy * width + dx)) * 120,
       srcImage (n * 1 + dy * width + dx) * 255 * alphImage (dy * width + dx)
         + (1 - alphImage (dy * width + dx)) * 255,
       srcImage (n * 2 + dy * width + dx) * 255 * alphImage (dy * width + dx)
         + (1 - alphImage (dy * width + dx)) * 155⟩ 0 255)

/-! Concrete buffers used to instantiate the theorems below on explicit
inputs. -/

/-- A concrete output buffer. -/
def out0 : ℕ → NativePixel := fun _ => .rgb8 0 0 0

/-- A concrete input image. -/
def input0 : ℤ → float4 := fun _ => ⟨8, 16, 32, 64⟩

/-- A concrete two-class color table (red and green). -/
def colors0 : ℕ → float4 :=
  fun c => if c = 0 then ⟨255, 0, 0, 255⟩ else ⟨0, 255, 0, 100⟩

/-- A concrete 2×2 score grid `[[0, 1], [1, 0]]` in row-major order. -/
def scores0 : ℤ → ℕ :=
  fun i => if i = 1 ∨ i = 2 then 1 else 0

/-- The 1×1 planar tensor of Scenario C, channel values `(1, 1/2, -1/5)`. -/
def tensorC : ℕ → ℚ :=
  fun i => if i = 0 then 1 else if i = 1 then 1/2 else if i = 2 then -1/5 else 0

/-! Shared auxiliary lemmas. -/

attribute [local semireducible] Rat.mul Rat.add Rat.inv Rat.sub

theorem float4_ext {a b : float4} (hx : a.x = b.x) (hy : a.y = b.y)
    (hz : a.z = b.z) (hw : a.w = b.w) : a = b := by
  cases a; cases b; cases hx; cases hy; cases hz; cases hw; rfl

theorem float3_ext {a b : float3} (hx : a.x = b.x) (hy : a.y = b.y)
    (hz : a.z = b.z) : a = b := by
  cases a; cases b; cases hx; cases hy; cases hz; rfl

/-- On nonnegative values the C truncation agrees with the floor. -/
theorem cToInt_eq_floor {q : ℚ} (h : 0 ≤ q) : cToInt q = ⌊q⌋ := if_pos h

theorem cToInt_nonneg {q : ℚ} (h : 0 ≤ q) : 0 ≤ cToInt q := by
  rw [cToInt_eq_floor h]
  exact Int.floor_nonneg.mpr h

theorem cToInt_lt {q : ℚ} {d : ℤ} (h0 : 0 ≤ q) (hd : q < (d : ℚ)) : cToInt q < d := by
  rw [cToInt_eq_floor h0]
  exact Int.floor_lt.mpr hd

theorem segPx_nonneg (out_width x : ℕ) : 0 ≤ segPx out_width x :=
  div_nonneg (Nat.cast_nonneg x) (Nat.cast_nonneg out_width)

theorem segPx_lt_one {out_width x : ℕ} (hx : x < out_width) :
    segPx out_width x < 1 := by
  have how : (0 : ℚ) < (out_width : ℚ) := by
    have : 0 < out_width := by omega
    exact_mod_cast this
  rw [segPx, div_lt_one how]
  exact_mod_cast hx

/-- The point-mode score-grid index is in bounds. -/
theorem segPointX1_bounds {out_width : ℕ} {dimx : ℤ} {x : ℕ}
    (hx : x < out_width) (hd : 0 < dimx) :
    0 ≤ segPointX1 out_width dimx x ∧ segPointX1 out_width dimx x < dimx := by
  have h0 : (0 : ℚ) ≤ segPx out_width x * (dimx : ℚ) :=
    mul_nonneg (segPx_nonneg _ _) (by exact_mod_cast hd.le)
  have hlt : segPx out_width x * (dimx : ℚ) < (dimx : ℚ) := by
    have hdq : (0 : ℚ) < (dimx : ℚ) := by exact_mod_cast hd
    calc segPx out_width x * (dimx : ℚ) < 1 * (dimx : ℚ) := by
          exact mul_lt_mul_of_pos_right (segPx_lt_one hx) hdq
      _ = (dimx : ℚ) := one_mul _
  exact ⟨cToInt_nonneg h0, cToInt_lt h0 hlt⟩

/-- The overlay-mode input-image sample index is in bounds. -/
theorem segXin_bounds {out_width : ℕ} {in_width : ℕ} {x : ℕ}
    (hx : x < out_width) (hw : 0 < in_width) :
    0 ≤ segXin out_width in_width x ∧ segXin out_width in_width x < (in_width : ℤ) := by
  have h0 : (0 : ℚ) ≤ segPx out_width x * (in_width : ℚ) :=
    mul_nonneg (segPx_nonneg _ _) (Nat.cast_nonneg _)
  have hlt : segPx out_width x * (in_width : ℚ) < ((in_width : ℤ) : ℚ) := by
    have hdq : (0 : ℚ) < (in_width : ℚ) := by exact_mod_cast hw
    push_cast
    calc segPx out_width x * (in_width : ℚ) < 1 * (in_width : ℚ) := by
          exact mul_lt_mul_of_pos_right (segPx_lt_one hx) hdq
      _ = (in_width : ℚ) := one_mul _
  exact ⟨cToInt_nonneg h0, cToInt_lt h0 hlt⟩

/-! The claims. -/

/-- C1: for every output pixel `(x, y)` with `x < out_width` and
`y < out_height`, in point-filter mask-only mode, the output pixel's RGB
equals the RGB of `class_colors[scores[y1 * scores_dim.x + x1]]` where
`(x1, y1) = (floor((x / out_width) * scores_dim.x),
floor((y / out_height) * scores_dim.y))` — exact equality, no blending,
alpha forced opaque. -/
theorem seg_point_mask_exact (input : ℤ → float4)
    (in_width in_height out_width out_height : ℕ) (class_colors : ℕ → float4)
    (scores : ℤ → ℕ) (scores_dim : int2) (x y : ℕ)
    (hx : x < out_width) (hy : y < out_height)
    (hdx : 0 ≤ scores_dim.x) (hdy : 0 ≤ scores_dim.y) :
    gpuSegOverlay input in_width in_height out_width out_height class_colors
      scores scores_dim false true x y =
    some ⟨(class_colors (scores
            (⌊(y : ℚ) / (out_height : ℚ) * (scores_dim.y : ℚ)⌋ * scores_dim.x
             + ⌊(x : ℚ) / (out_width : ℚ) * (scores_dim.x : ℚ)⌋))).x,
          (class_colors (scores
            (⌊(y : ℚ) / (out_height : ℚ) * (scores_dim.y : ℚ)⌋ * scores_dim.x
             + ⌊(x : ℚ) / (out_width : ℚ) * (scores_dim.x : ℚ)⌋))).y,
          (class_colors (scores
            (⌊(y : ℚ) / (out_height : ℚ) * (scores_dim.y : ℚ)⌋ * scores_dim.x
             + ⌊(x : ℚ) / (out_width : ℚ) * (scores_dim.x : ℚ)⌋))).z,
          255⟩ := by
  have hg : ¬(x ≥ out_width ∨ y ≥ out_height) := by omega
  have h1 : cToInt (segPx out_width x * (scores_dim.x : ℚ))
      = ⌊(x : ℚ) / (out_width : ℚ) * (scores_dim.x : ℚ)⌋ :=
    cToInt_eq_floor (mul_nonneg (segPx_nonneg _ _) (by exact_mod_cast hdx))
  have h2 : cToInt (segPx out_height y * (scores_dim.y : ℚ))
      = ⌊(y : ℚ) / (out_height : ℚ) * (scores_dim.y : ℚ)⌋ :=
    cToInt_eq_floor (mul_nonneg (segPx_nonneg _ _) (by exact_mod_cast hdy))
  unfold gpuSegOverlay
  rw [if_neg hg]
  simp only [Bool.false_eq_true, if_false, if_true, segPointColor, segPointX1,
    segMaskPixel, h1, h2]

/-- C1 witness: a concrete instance of `seg_point_mask_exact` at pixel
`(3, 0)` of a 4×4 point-mode mask over the 2×2 grid `[[0, 1], [1, 0]]`. -/
theorem seg_point_mask_exact_witness :
    gpuSegOverlay input0 1 1 4 4 colors0 scores0 ⟨2, 2⟩ false true 3 0 =
    some ⟨(colors0 (scores0 (⌊(0 : ℚ) / (4 : ℚ) * (2 : ℚ)⌋ * 2
             + ⌊(3 : ℚ) / (4 : ℚ) * (2 : ℚ)⌋))).x,
          (colors0 (scores0 (⌊(0 : ℚ) / (4 : ℚ) * (2 : ℚ)⌋ * 2
             + ⌊(3 : ℚ) / (4 : ℚ) * (2 : ℚ)⌋))).y,
          (colors0 (scores0 (⌊(0 : ℚ) / (4 : ℚ) * (2 : ℚ)⌋ * 2
             + ⌊(3 : ℚ) / (4 : ℚ) * (2 : ℚ)⌋))).z,
          255⟩ :=
  seg_point_mask_exact input0 1 1 4 4 colors0 scores0 ⟨2, 2⟩ 3 0
    (by decide) (by decide) (by decide) (by decide)

/-- C2: for every output pixel `(x, y)` in point-filter overlay mode
(`mask_only` false), the output RGB equals
`alpha * color + (1 - alpha) * input_pixel` computed per channel with
`alpha = color.w / 255`, where `color` is the nearest-cell class color and
`input_pixel` is the input image sampled at
`(floor(px * in_width), floor(py * in_height))` with
`(px, py) = (x / out_width, y / out_height)`; the output alpha is forced
opaque and no rounding or clamping is applied to the blend result (the
arithmetic is modelled exactly, and the stated value is the unrounded,
unclamped blend). -/
theorem seg_point_overlay_blend (input : ℤ → float4)
    (in_width in_height out_width out_height : ℕ) (class_colors : ℕ → float4)
    (scores : ℤ → ℕ) (scores_dim : int2) (x y : ℕ)
    (hx : x < out_width) (hy : y < out_height)
    (hdx : 0 ≤ scores_dim.x) (hdy : 0 ≤ scores_dim.y) :
    gpuSegOverlay input in_width in_height out_width out_height class_colors
      scores scores_dim false false x y =
    (let color := class_colors (scores
        (⌊(y : ℚ) / (out_height : ℚ) * (scores_dim.y : ℚ)⌋ * scores_dim.x
         + ⌊(x : ℚ) / (out_width : ℚ) * (scores_dim.x : ℚ)⌋));
     let alpha := color.w / 255;
     let input_pixel := input
        (⌊(y : ℚ) / (out_height : ℚ) * (in_height : ℚ)⌋ * (in_width : ℤ)
         + ⌊(x : ℚ) / (out_width : ℚ) * (in_width : ℚ)⌋);
     some ⟨alpha * color.x + (1 - alpha) * input_pixel.x,
           alpha * color.y + (1 - alpha) * input_pixel.y,
           alpha * color.z + (1 - alpha) * input_pixel.z,
           255⟩) := by
  have hg : ¬(x ≥ out_width ∨ y ≥ out_height) := by omega
  have h1 : cToInt (segPx out_width x * (scores_dim.x : ℚ))
      = ⌊(x : ℚ) / (out_width : ℚ) * (scores_dim.x : ℚ)⌋ :=
    cToInt_eq_floor (mul_nonneg (segPx_nonneg _ _) (by exact_mod_cast hdx))
  have h2 : cToInt (segPx out_height y * (scores_dim.y : ℚ))
      = ⌊(y : ℚ) / (out_height : ℚ) * (scores_dim.y : ℚ)⌋ :=
    cToInt_eq_floor (mul_nonneg (segPx_nonneg _ _) (by exact_mod_cast hdy))
  have h3 : cToInt (segPx out_width x * (in_width : ℚ))
      = ⌊(x : ℚ) / (out_width : ℚ) * (in_width : ℚ)⌋ :=
    cToInt_eq_floor (mul_nonneg (segPx_nonneg _ _) (Nat.cast_nonneg _))
  have h4 : cToInt (segPx out_height y * (in_height : ℚ))
      = ⌊(y : ℚ) / (out_height : ℚ) * (in_height : ℚ)⌋ :=
    cToInt_eq_floor (mul_nonneg (segPx_nonneg _ _) (Nat.cast_nonneg _))
  unfold gpuSegOverlay
  rw [if_neg hg]
  simp only [Bool.false_eq_true, if_false, segPointColor, segPointX1,
    segBlendPixel, segXin, h1, h2, h3, h4]

/-- C2 witness: a concrete instance of `seg_point_overlay_blend` at pixel
`(3, 2)` of a 4×4 overlay over a 2×2 input image. -/
theorem seg_point_overlay_blend_witness :
    gpuSegOverlay input0 2 2 4 4 colors0 scores0 ⟨2, 2⟩ false false 3 2 =
    (let color := colors0 (scores0 (⌊(2 : ℚ) / (4 : ℚ) * (2 : ℚ)⌋ * 2
         + ⌊(3 : ℚ) / (4 : ℚ) * (2 : ℚ)⌋));
     let alpha := color.w / 255;
     let input_pixel := input0 (⌊(2 : ℚ) / (4 : ℚ) * (2 : ℚ)⌋ * (2 : ℤ)
         + ⌊(3 : ℚ) / (4 : ℚ) * (2 : ℚ)⌋);
     some ⟨alpha * color.x + (1 - alpha) * input_pixel.x,
           alpha * color.y + (1 - alpha) * input_pixel.y,
           alpha * color.z + (1 - alpha) * input_pixel.z,
           255⟩) :=
  seg_point_overlay_blend input0 2 2 4 4 colors0 scores0 ⟨2, 2⟩ 3 2
    (by decide) (by decide) (by decide) (by decide)

/-- C10: in point-filter mode, for every output pixel `(x, y)` with
`x < out_width` and `y < out_height`, and positive `scores_dim` and input
dimensions, all computed read indices are in bounds without any explicit
clamp: `0 ≤ x1 < scores_dim.x`, `0 ≤ y1 < scores_dim.y`, and the overlay
input sample satisfies `0 ≤ x_in < in_width` and `0 ≤ y_in < in_height`,
because `px = x / out_width` and `py = y / out_height` lie in `[0, 1)`. -/
theorem seg_point_indices_in_bounds (in_width in_height out_width out_height : ℕ)
    (scores_dim : int2) (x y : ℕ) (hx : x < out_width) (hy : y < out_height)
    (hdx : 0 < scores_dim.x) (hdy : 0 < scores_dim.y)
    (hiw : 0 < in_width) (hih : 0 < in_height) :
    (0 ≤ segPointX1 out_width scores_dim.x x
      ∧ segPointX1 out_width scores_dim.x x < scores_dim.x) ∧
    (0 ≤ segPointX1 out_height scores_dim.y y
      ∧ segPointX1 out_height scores_dim.y y < scores_dim.y) ∧
    (0 ≤ segXin out_width in_width x
      ∧ segXin out_width in_width x < (in_width : ℤ)) ∧
    (0 ≤ segXin out_height in_height y
      ∧ segXin out_height in_height y < (in_height : ℤ)) :=
  ⟨segPointX1_bounds hx hdx, segPointX1_bounds hy hdy,
   segXin_bounds hx hiw, segXin_bounds hy hih⟩

/-- C10 witness: a concrete instance of `seg_point_indices_in_bounds` at
the last pixel of a 3×3 output over a 2×2 grid and a 2×2 input. -/
theorem seg_point_indices_in_bounds_witness :
    (0 ≤ segPointX1 3 (2 : ℤ) 2 ∧ segPointX1 3 (2 : ℤ) 2 < 2) ∧
    (0 ≤ segPointX1 3 (2 : ℤ) 2 ∧ segPointX1 3 (2 : ℤ) 2 < 2) ∧
    (0 ≤ segXin 3 2 2 ∧ segXin 3 2 2 < (2 : ℤ)) ∧
    (0 ≤ segXin 3 2 2 ∧ segXin 3 2 2 < (2 : ℤ)) :=
  seg_point_indices_in_bounds 2 2 3 3 ⟨2, 2⟩ 2 2
    (by decide) (by decide) (by decide) (by decide) (by decide) (by decide)

theorem segLinearCX_nonneg (out_width : ℕ) (dimx : ℤ) (x : ℕ) :
    0 ≤ segLinearCX out_width dimx x := by
  simp only [segLinearCX]
  split
  · exact le_refl 0
  next h => exact le_of_not_lt h

theorem segLinearCX_lt {out_width : ℕ} {dimx : ℤ} {x : ℕ}
    (hx : x < out_width) (hd : 0 < dimx) :
    segLinearCX out_width dimx x < (dimx : ℚ) := by
  have hdq : (0 : ℚ) < (dimx : ℚ) := by exact_mod_cast hd
  have hmul : segPx out_width x * (dimx : ℚ) < (dimx : ℚ) := by
    calc segPx out_width x * (dimx : ℚ) < 1 * (dimx : ℚ) :=
          mul_lt_mul_of_pos_right (segPx_lt_one hx) hdq
      _ = (dimx : ℚ) := one_mul _
  simp only [segLinearCX]
  split
  · exact hdq
  · linarith

/-- One axis of the linear-filter neighbor computation: the low neighbor is
in `[0, dimx)` and the high neighbor is the edge-clamped
`min(x1 + 1, dimx - 1)`. -/
theorem segLinear_axis {out_width : ℕ} {dimx : ℤ} {x : ℕ}
    (hx : x < out_width) (hd : 0 < dimx) :
    0 ≤ segLinearX1 out_width dimx x ∧ segLinearX1 out_width dimx x < dimx ∧
      segLinearX2 out_width dimx x
        = min (segLinearX1 out_width dimx x + 1) (dimx - 1) := by
  have h0 := segLinearCX_nonneg out_width dimx x
  have hlt := segLinearCX_lt hx hd
  have hb1 : 0 ≤ segLinearX1 out_width dimx x := cToInt_nonneg h0
  have hb2 : segLinearX1 out_width dimx x < dimx := cToInt_lt h0 hlt
  refine ⟨hb1, hb2, ?_⟩
  simp only [segLinearX2]
  split <;> omega

/-- C5: in linear-filter mode, for every output pixel the high-neighbor
indices are edge-clamped: `x2 = min(x1 + 1, scores_dim.x - 1)` and
`y2 = min(y1 + 1, scores_dim.y - 1)`, so for coordinates mapping past the
last row or column the high neighbor equals the low neighbor and no read
of the score grid falls outside `[0, scores_dim.x) × [0, scores_dim.y)`;
in particular with a 1×1 score grid all four fetched neighbors are cell
`(0, 0)`. -/
theorem seg_linear_edge_clamp (out_width out_height : ℕ) (scores_dim : int2)
    (x y : ℕ) (hx : x < out_width) (hy : y < out_height)
    (hdx : 0 < scores_dim.x) (hdy : 0 < scores_dim.y) :
    (segLinearX2 out_width scores_dim.x x
       = min (segLinearX1 out_width scores_dim.x x + 1) (scores_dim.x - 1)) ∧
    (segLinearX2 out_height scores_dim.y y
       = min (segLinearX1 out_height scores_dim.y y + 1) (scores_dim.y - 1)) ∧
    (0 ≤ segLinearX1 out_width scores_dim.x x
       ∧ segLinearX1 out_width scores_dim.x x < scores_dim.x
       ∧ 0 ≤ segLinearX2 out_width scores_dim.x x
       ∧ segLinearX2 out_width scores_dim.x x < scores_dim.x) ∧
    (0 ≤ segLinearX1 out_height scores_dim.y y
       ∧ segLinearX1 out_height scores_dim.y y < scores_dim.y
       ∧ 0 ≤ segLinearX2 out_height scores_dim.y y
       ∧ segLinearX2 out_height scores_dim.y y < scores_dim.y) ∧
    (scores_dim.x = 1 → segLinearX1 out_width scores_dim.x x = 0
       ∧ segLinearX2 out_width scores_dim.x x = 0) ∧
    (scores_dim.y = 1 → segLinearX1 out_height scores_dim.y y = 0
       ∧ segLinearX2 out_height scores_dim.y y = 0) := by
  obtain ⟨ha1, ha2, ha3⟩ := segLinear_axis hx hdx
  obtain ⟨hb1, hb2, hb3⟩ := segLinear_axis hy hdy
  refine ⟨ha3, hb3, ⟨ha1, ha2, by omega, by omega⟩, ⟨hb1, hb2, by omega, by omega⟩,
    by omega, by omega⟩

/-- C4: for every output pixel, when the four score-grid cells
`(x1, y1), (x2, y1), (x2, y2), (x1, y2)` selected by linear-filter mode all
hold the same class id `k`, the linear-mode result equals the point-mode
result for a grid of that single class: the interpolated color equals that
class's color exactly, because the four bilinear weights sum to 1 by
construction. -/
theorem seg_linear_constant_region (input : ℤ → float4)
    (in_width in_height out_width out_height : ℕ) (class_colors : ℕ → float4)
    (scores : ℤ → ℕ) (scores_dim : int2) (k : ℕ) (mask_only : Bool) (x y : ℕ)
    (h0 : scores (segLinearX1 out_height scores_dim.y y * scores_dim.x
            + segLinearX1 out_width scores_dim.x x) = k)
    (h1 : scores (segLinearX1 out_height scores_dim.y y * scores_dim.x
            + segLinearX2 out_width scores_dim.x x) = k)
    (h2 : scores (segLinearX2 out_height scores_dim.y y * scores_dim.x
            + segLinearX2 out_width scores_dim.x x) = k)
    (h3 : scores (segLinearX2 out_height scores_dim.y y * scores_dim.x
            + segLinearX1 out_width scores_dim.x x) = k) :
    segLinearColor class_colors scores scores_dim out_width out_height x y
      = class_colors k ∧
    gpuSegOverlay input in_width in_height out_width out_height class_colors
        scores scores_dim true mask_only x y
      = gpuSegOverlay input in_width in_height out_width out_height class_colors
        (fun _ => k) scores_dim false mask_only x y := by
  have hcol : segLinearColor class_colors scores scores_dim out_width out_height x y
      = class_colors k := by
    simp only [segLinearColor, h0, h1, h2, h3]
    refine float4_ext ?_ ?_ ?_ ?_ <;> dsimp only <;> ring
  refine ⟨hcol, ?_⟩
  have hpt : segPointColor class_colors (fun _ => k) scores_dim
      out_width out_height x y = class_colors k := rfl
  unfold gpuSegOverlay
  by_cases hg : x ≥ out_width ∨ y ≥ out_height
  · rw [if_pos hg, if_pos hg]
  · rw [if_neg hg, if_neg hg]
    simp only [if_true, Bool.false_eq_true, if_false, hcol, hpt]

/-- C4 witness: a concrete instance of `seg_linear_constant_region` on a
constant 2×2 score grid (class 1 everywhere), pixel `(1, 2)` of a 4×4
mask-mode output. -/
theorem seg_linear_constant_region_witness :
    segLinearColor colors0 (fun _ => 1) ⟨2, 2⟩ 4 4 1 2 = colors0 1 ∧
    gpuSegOverlay input0 2 2 4 4 colors0 (fun _ => 1) ⟨2, 2⟩ true true 1 2
      = gpuSegOverlay input0 2 2 4 4 colors0 (fun _ => 1) ⟨2, 2⟩ false true 1 2 :=
  seg_linear_constant_region input0 2 2 4 4 colors0 (fun _ => 1) ⟨2, 2⟩ 1 true 1 2
    (by decide) (by decide) (by decide) (by decide)

/-- C5 witness: a concrete instance of `seg_linear_edge_clamp` at the last
pixel of a 4×4 output over a 1×1 score grid (the trivial-clamp scenario:
both neighbors on both axes are cell `(0, 0)`). -/
theorem seg_linear_edge_clamp_witness :
    (segLinearX2 4 (1 : ℤ) 3 = min (segLinearX1 4 (1 : ℤ) 3 + 1) (1 - 1)) ∧
    (segLinearX2 4 (1 : ℤ) 3 = min (segLinearX1 4 (1 : ℤ) 3 + 1) (1 - 1)) ∧
    (0 ≤ segLinearX1 4 (1 : ℤ) 3 ∧ segLinearX1 4 (1 : ℤ) 3 < 1
       ∧ 0 ≤ segLinearX2 4 (1 : ℤ) 3 ∧ segLinearX2 4 (1 : ℤ) 3 < 1) ∧
    (0 ≤ segLinearX1 4 (1 : ℤ) 3 ∧ segLinearX1 4 (1 : ℤ) 3 < 1
       ∧ 0 ≤ segLinearX2 4 (1 : ℤ) 3 ∧ segLinearX2 4 (1 : ℤ) 3 < 1) ∧
    ((1 : ℤ) = 1 → segLinearX1 4 (1 : ℤ) 3 = 0 ∧ segLinearX2 4 (1 : ℤ) 3 = 0) ∧
    ((1 : ℤ) = 1 → segLinearX1 4 (1 : ℤ) 3 = 0 ∧ segLinearX2 4 (1 : ℤ) 3 = 0) :=
  seg_linear_edge_clamp 4 4 ⟨1, 1⟩ 3 3 (by decide) (by decide) (by decide) (by decide)

/-- C3: `cudaSegOverlay` fails fast before any kernel work: a null output
pointer returns the invalid-pointer error, a zero output width or height
returns the invalid-argument error, and an unsupported pixel format
returns the invalid-argument error; in each of these failure cases the
output buffer is left completely untouched. -/
theorem cudaSegOverlay_fail_fast (input : Option (ℤ → float4))
    (in_width in_height : ℕ) (out : ℕ → NativePixel) (out_width out_height : ℕ)
    (format : imageFormat) (class_colors : Option (ℕ → float4))
    (scores : Option (ℤ → ℕ)) (scores_dim : int2) (filter_linear mask_only : Bool) :
    (cudaSegOverlay input in_width in_height none out_width out_height format
        class_colors scores scores_dim filter_linear mask_only
      = (.cudaErrorInvalidDevicePointer, none)) ∧
    ((out_width = 0 ∨ out_height = 0) →
      cudaSegOverlay input in_width in_height (some out) out_width out_height format
        class_colors scores scores_dim filter_linear mask_only
      = (.cudaErrorInvalidValue, some out)) ∧
    (imageFormatIsRGB format = false → ¬(out_width = 0 ∨ out_height = 0) →
      cudaSegOverlay input in_width in_height (some out) out_width out_height format
        class_colors scores scores_dim filter_linear mask_only
      = (.cudaErrorInvalidValue, some out)) := by
  refine ⟨rfl, ?_, ?_⟩
  · intro h
    unfold cudaSegOverlay
    dsimp only
    rw [if_pos h]
  · intro hf h
    unfold cudaSegOverlay
    dsimp only
    rw [if_neg h, if_pos hf]

/-- C3 witness: the three failure cases of `cudaSegOverlay_fail_fast` at
concrete inputs — null output, zero width, and the unsupported gray8
format — each returning the stated error with the buffer untouched. -/
theorem cudaSegOverlay_fail_fast_witness :
    (cudaSegOverlay none 2 2 none 2 2 imageFormat.IMAGE_RGB8 none none ⟨1, 1⟩
        false false = (.cudaErrorInvalidDevicePointer, none)) ∧
    (cudaSegOverlay none 2 2 (some out0) 0 2 imageFormat.IMAGE_RGB8 none none ⟨1, 1⟩
        false false = (.cudaErrorInvalidValue, some out0)) ∧
    (cudaSegOverlay none 2 2 (some out0) 2 2 imageFormat.IMAGE_GRAY8 none none ⟨1, 1⟩
        false false = (.cudaErrorInvalidValue, some out0)) :=
  ⟨(cudaSegOverlay_fail_fast none 2 2 out0 2 2 .IMAGE_RGB8 none none ⟨1, 1⟩
      false false).1,
   (cudaSegOverlay_fail_fast none 2 2 out0 0 2 .IMAGE_RGB8 none none ⟨1, 1⟩
      false false).2.1 (Or.inl rfl),
   (cudaSegOverlay_fail_fast none 2 2 out0 2 2 .IMAGE_GRAY8 none none ⟨1, 1⟩
      false false).2.2 (by decide) (by decide)⟩

/-- C9: `cudaSegOverlay`'s pre-launch validation inspects only the output
pointer among the buffer arguments: for every call with a non-null output,
non-zero output dimensions, and a supported format — whatever the
input-image, score-grid and class-color-table pointers are, including
null — no invalid-pointer error is returned and the kernel is dispatched
anyway, the returned buffer being the kernel-written one. -/
theorem cudaSegOverlay_null_inputs_dispatch (input : Option (ℤ → float4))
    (in_width in_height : ℕ) (out : ℕ → NativePixel) (out_width out_height : ℕ)
    (format : imageFormat) (class_colors : Option (ℕ → float4))
    (scores : Option (ℤ → ℕ)) (scores_dim : int2) (filter_linear mask_only : Bool)
    (hw : out_width ≠ 0) (hh : out_height ≠ 0)
    (hf : imageFormatIsRGB format = true) :
    cudaSegOverlay input in_width in_height (some out) out_width out_height format
      class_colors scores scores_dim filter_linear mask_only
    = (.cudaSuccess,
       some (gpuSegOverlayBuffer out format (derefImage input) in_width in_height
         out_width out_height (derefColors class_colors) (derefScores scores)
         scores_dim filter_linear mask_only)) := by
  unfold cudaSegOverlay
  dsimp only
  rw [if_neg (by tauto), if_neg (by simp [hf])]

/-- C9 witness: a concrete instance of `cudaSegOverlay_null_inputs_dispatch`
in which the input-image, score-grid and class-color-table pointers are all
null: the call still dispatches the kernel and reports success. -/
theorem cudaSegOverlay_null_inputs_dispatch_witness :
    cudaSegOverlay none 1 1 (some out0) 2 2 imageFormat.IMAGE_RGB8 none none ⟨1, 1⟩
      false false
    = (.cudaSuccess,
       some (gpuSegOverlayBuffer out0 .IMAGE_RGB8 (derefImage none) 1 1 2 2
         (derefColors none) (derefScores none) ⟨1, 1⟩ false false)) :=
  cudaSegOverlay_null_inputs_dispatch none 1 1 out0 2 2 .IMAGE_RGB8 none none
    ⟨1, 1⟩ false false (by decide) (by decide) (by decide)

/-- C6: `cudaBlendRGBA32ToRGB8`'s kernel computes, for every pixel and each
of the three channels,
`out_channel = clip(255 * src_channel * alpha + (1 - alpha) * BG_channel, 0, 255)`
with saturating clip, where `alpha` is read from the single-channel alpha
plane at that pixel and `BG = (120, 255, 155)` is a fixed per-channel
background constant baked into the operation (not supplied by the caller),
and writes the result as a quantized 3-channel integer pixel. -/
theorem blend_matte_formula (srcImage alphImage : ℕ → ℚ) (width height x y : ℕ)
    (hx : x < width) (hy : y < height) :
    BlendRGBA32ToRGB8 srcImage alphImage width height x y =
    some (clip3
      ⟨255 * srcImage (width * height * 0 + y * width + x) * alphImage (y * width + x)
         + (1 - alphImage (y * width + x)) * 120,
       255 * srcImage (width * height * 1 + y * width + x) * alphImage (y * width + x)
         + (1 - alphImage (y * width + x)) * 255,
       255 * srcImage (width * height * 2 + y * width + x) * alphImage (y * width + x)
         + (1 - alphImage (y * width + x)) * 155⟩ 0 255) := by
  have hg : ¬(x ≥ width ∨ y ≥ height) := by omega
  unfold BlendRGBA32ToRGB8
  rw [if_neg hg]
  exact congrArg some (congrArg (fun v => clip3 v 0 255)
    (float3_ext (by ring) (by ring) (by ring)))

/-- A concrete 1×1 foreground tensor for the matte-blend witness. -/
def matteSrc : ℕ → ℚ := fun _ => 1/2

/-- A concrete 1×1 alpha plane for the matte-blend witness. -/
def matteAlph : ℕ → ℚ := fun _ => 1/2

/-- C6 witness: a concrete instance of `blend_matte_formula` on a 1×1
image with foreground 1/2 and alpha 1/2 on all planes. -/
theorem blend_matte_formula_witness :
    BlendRGBA32ToRGB8 matteSrc matteAlph 1 1 0 0 =
    some (clip3
      ⟨255 * matteSrc (1 * 1 * 0 + 0 * 1 + 0) * matteAlph (0 * 1 + 0)
         + (1 - matteAlph (0 * 1 + 0)) * 120,
       255 * matteSrc (1 * 1 * 1 + 0 * 1 + 0) * matteAlph (0 * 1 + 0)
         + (1 - matteAlph (0 * 1 + 0)) * 255,
       255 * matteSrc (1 * 1 * 2 + 0 * 1 + 0) * matteAlph (0 * 1 + 0)
         + (1 - matteAlph (0 * 1 + 0)) * 155⟩ 0 255) :=
  blend_matte_formula matteSrc matteAlph 1 1 0 0 (by decide) (by decide)

/-- C7 counterexample: `TensorToRGB` on the 1×1 tensor with channel values
`(1, 1/2, -1/5)` does NOT yield the pixel `(255, 128, 0)` claimed by
Scenario C — the channel value `1/2 * 255 = 127.5` survives the saturating
clip unchanged and is then truncated (not rounded) by the
float-to-unsigned-char conversion, giving 127. -/
theorem tensor_to_rgb_scenario_c_cex :
    TensorToRGB tensorC 1 1 0 0 ≠ some ⟨255, 128, 0⟩ := by decide

/-- C7 (amended): `TensorToRGB` applied to a 1×1 planar tensor with channel
values `(1, 1/2, -1/5)` produces the single output pixel `(255, 127, 0)`:
each channel is multiplied by 255, saturating-clipped to `[0, 255]`, and
truncated to an 8-bit integer channel. -/
theorem tensor_to_rgb_scenario_c_value :
    TensorToRGB tensorC 1 1 0 0 = some ⟨255, 127, 0⟩ := by decide

/-- C8 counterexample: in mask-only mode on the 32-bit float format
rgba32f, the stored alpha channel is 255, not the claimed native opaque
value 1.0 — the kernel passes the literal 255 for every format and the
native float channel stores it unscaled. -/
theorem seg_mask_alpha_float_cex :
    (gpuSegOverlayNative .IMAGE_RGBA32F input0 1 1 1 1 colors0 scores0 ⟨1, 1⟩
        false true 0 0).map NativePixel.alphaChannel = some (some 255) ∧
    ¬((gpuSegOverlayNative .IMAGE_RGBA32F input0 1 1 1 1 colors0 scores0 ⟨1, 1⟩
        false true 0 0).map NativePixel.alphaChannel = some (some 1)) := by
  refine ⟨by decide, by decide⟩

/-- C8 (amended): in mask-only mode (for both point and linear filtering),
for every output pixel and every supported pixel format, the written alpha
channel is 255 in the output's native channel type — the 8-bit value 255
for rgba8 and the float value 255.0 (not 1.0) for rgba32f — while the
3-channel formats rgb8 and rgb32f carry no alpha channel at all. -/
theorem seg_mask_alpha_native (format : imageFormat) (input : ℤ → float4)
    (in_width in_height out_width out_height : ℕ) (class_colors : ℕ → float4)
    (scores : ℤ → ℕ) (scores_dim : int2) (filter_linear : Bool) (x y : ℕ)
    (hx : x < out_width) (hy : y < out_height)
    (hf : imageFormatIsRGB format = true) :
    (gpuSegOverlayNative format input in_width in_height out_width out_height
        class_colors scores scores_dim filter_linear true x y).map
      NativePixel.alphaChannel
    = some (if format = .IMAGE_RGBA8 ∨ format = .IMAGE_RGBA32F
            then some 255 else none) := by
  have hg : ¬(x ≥ out_width ∨ y ≥ out_height) := by omega
  have h255 : cToInt 255 = 255 := by
    rw [cToInt_eq_floor (by norm_num)]
    norm_num
  unfold gpuSegOverlayNative gpuSegOverlay
  rw [if_neg hg]
  cases format <;>
    simp_all [make_vec, NativePixel.alphaChannel, segMaskPixel]

/-- C8 witness: a concrete instance of `seg_mask_alpha_native` on the
rgba8 format, whose stored mask-mode alpha is the 8-bit value 255. -/
theorem seg_mask_alpha_native_witness :
    (gpuSegOverlayNative imageFormat.IMAGE_RGBA8 input0 1 1 1 1 colors0 scores0
        ⟨1, 1⟩ false true 0 0).map NativePixel.alphaChannel
    = some (if imageFormat.IMAGE_RGBA8 = .IMAGE_RGBA8
              ∨ imageFormat.IMAGE_RGBA8 = .IMAGE_RGBA32F
            then some 255 else none) :=
  seg_mask_alpha_native .IMAGE_RGBA8 input0 1 1 1 1 colors0 scores0 ⟨1, 1⟩
    false 0 0 (by decide) (by decide) (by decide)
